import Mathlib

/-!
Verification development for the Skinvend API client (`src/APIskinved.js`).

The JavaScript source is shallowly embedded: JavaScript values flowing through
the signing pipeline become the inductive `JSVal`; the private method
`#generateSignature` (lines 327-345) becomes `generateSignature`; the axios
client with its mutable default header slots becomes explicit state passing
over `HeaderState`; `Date.now()` becomes explicit timestamp arguments, one per
textual call site, in source order.  Fallible code returns `Except JSError`.
-/

/-- A JavaScript value as it can appear in a request-parameter object.
A number is carried by its ECMAScript `ToString` rendering (all numeric
inputs in this development - `0.5`, `730`, timestamps - have exact decimal
renderings, so no floating-point behaviour is lost). -/
inductive JSVal where
  | str (s : String)
  | num (render : String)
  | bool (b : Bool)
  | null
  | undefined
  | arr (elems : List JSVal)
  | obj (fields : List (String × JSVal))

/-- The result of JavaScript `typeof` on a `JSVal` (note `typeof null` and
`typeof` of an array are both `"object"`). -/
def jsTypeof : JSVal → String
  | .str _ => "string"
  | .num _ => "number"
  | .bool _ => "boolean"
  | .null => "object"
  | .undefined => "undefined"
  | .arr _ => "object"
  | .obj _ => "object"

/-- `value === null` from line 335. -/
def jsIsNull : JSVal → Bool
  | .null => true
  | _ => false

/-- JavaScript falsiness, as tested by the `if (!x)` argument guards.
A `num` carries its `ToString` rendering, so `0` renders as `"0"` and `NaN`
as `"NaN"`; those are the falsy numbers. -/
def jsFalsy : JSVal → Bool
  | .undefined => true
  | .null => true
  | .str s => s == ""
  | .num r => r == "0" || r == "NaN"
  | .bool b => !b
  | .arr _ => false
  | .obj _ => false

mutual
/-- `ToString` of a value as used by `Array.prototype.join` inside the default
sort comparator: `null` and `undefined` render as the empty string there,
arrays render as their comma-join, plain objects as `"[object Object]"`. -/
def joinElemString : JSVal → String
  | .str s => s
  | .num r => r
  | .bool b => if b then "true" else "false"
  | .null => ""
  | .undefined => ""
  | .arr xs => joinElemList xs
  | .obj _ => "[object Object]"

/-- Comma-join of array elements, the `Array.prototype.toString` behaviour. -/
def joinElemList : List JSVal → String
  | [] => ""
  | [v] => joinElemString v
  | v :: vs => joinElemString v ++ "," ++ joinElemList vs
end

/-- The rendering used by `stringData += value` on line 339 (standalone
string conversion: here `null` renders as `"null"`).  Only `str`, `num` and
`bool` values ever reach that line, because of the `continue` on line 336. -/
def appendRender : JSVal → String
  | .str s => s
  | .num r => r
  | .bool b => if b then "true" else "false"
  | .null => "null"
  | .undefined => "undefined"
  | .arr xs => joinElemList xs
  | .obj _ => "[object Object]"

/-- The skip test of lines 335-336:
`['array', 'object', 'undefined'].includes(typeof value) || value === null`. -/
def skipValue (v : JSVal) : Bool :=
  ["array", "object", "undefined"].contains (jsTypeof v) || jsIsNull v

/-- Code-unit-wise `≤` on character lists, the comparison performed by the
default `Array.prototype.sort` comparator on the `ToString` of its arguments
(JavaScript compares UTF-16 code units; every key and value in this
development is ASCII, where code units and code points agree). -/
def charListLe : List Char → List Char → Bool
  | [], _ => true
  | _ :: _, [] => false
  | a :: as, b :: bs =>
    if a.toNat < b.toNat then true
    else if b.toNat < a.toNat then false
    else charListLe as bs

/-- `a` is an initial segment of `b` (character equality via code points). -/
def isInitSegB : List Char → List Char → Bool
  | [], _ => true
  | _ :: _, [] => false
  | a :: as, b :: bs => a.toNat == b.toNat && isInitSegB as bs

/-- Insert into a sorted list, keeping `a` before the first element it
compares `≤` to: the position a stable sort gives the earlier of two
equal-comparing elements. -/
def orderedInsertB (le : α → α → Bool) (a : α) : List α → List α
  | [] => [a]
  | b :: l => if le a b then a :: b :: l else b :: orderedInsertB le a l

/-- Stable insertion sort.  ECMAScript requires `Array.prototype.sort` to be
stable, and for a comparator that is a total preorder (string comparison of
the rendered elements is one) the stable-sorted result is unique, so this
models the source's `.sort()` exactly. -/
def insertionSortB (le : α → α → Bool) : List α → List α
  | [] => []
  | a :: l => orderedInsertB le a (insertionSortB le l)

/-- The characters of `ToString([key, value])`, the string the default sort
comparator actually compares on line 330: `key + "," + join(value)`. -/
def entryChars (p : String × JSVal) : List Char :=
  p.1.data ++ ',' :: (joinElemString p.2).data

/-- Comparator used by `Object.entries(data).sort()`: code-unit comparison of
the `"key,value"` pair strings. -/
def entLe (p q : String × JSVal) : Bool :=
  charListLe (entryChars p) (entryChars q)

/-- Comparator on keys alone (ordinal), what the specification's words
describe. -/
def keyLe (p q : String × JSVal) : Bool :=
  charListLe p.1.data q.1.data

/-- Decimal digits to a natural number. -/
def digitsToNat (cs : List Char) : Nat :=
  cs.foldl (fun n c => n * 10 + (c.toNat - 48)) 0

/-- Whether a key is an ECMAScript array-index string: a canonical base-10
integer below `2^32 - 1` (nonempty, all digits, no leading zero unless the
key is exactly `"0"`).  `Object.fromEntries` on line 330 places such keys
first, in ascending numeric order, when the object is enumerated. -/
def isArrayIndexKey (s : String) : Bool :=
  !s.data.isEmpty && s.data.all Char.isDigit &&
    (s == "0" || !(s.data.headD ' ' == '0')) &&
    Nat.blt (digitsToNat s.data) 4294967295

/-- Numeric comparator for array-index keys. -/
def keyNumLe (p q : String × JSVal) : Bool :=
  Nat.ble (digitsToNat p.1.data) (digitsToNat q.1.data)

/-- Own-property enumeration order of `Object.fromEntries(entries)`:
array-index keys first in ascending numeric order, then the remaining keys
in insertion order.  `Object.values` on line 333 visits properties in this
order. -/
def fromEntriesOrder (l : List (String × JSVal)) : List (String × JSVal) :=
  insertionSortB keyNumLe (l.filter (fun p => isArrayIndexKey p.1)) ++
    l.filter (fun p => !isArrayIndexKey p.1)

/-- `Object.entries(data).sort()` from line 330. -/
def sortEntries (data : List (String × JSVal)) : List (String × JSVal) :=
  insertionSortB entLe data

/-- The accumulator loop of lines 331-340: visit the values of
`Object.fromEntries(Object.entries(data).sort())` in enumeration order,
skip non-primitive and null/undefined values, append the rendering of the
rest with no separators. -/
def canonicalString (data : List (String × JSVal)) : String :=
  ((fromEntriesOrder (sortEntries data)).map Prod.snd).foldl
    (fun acc v => if skipValue v then acc else acc ++ appendRender v) ""

/-- Modelled from the spec: the canonicalization as §4.1's words describe
it - entries sorted by ordinal comparison of the key names alone, then the
surviving values appended.  Stated separately so it can be compared with
`canonicalString`, the serializer the source actually implements. -/
def canonicalStringSpec (data : List (String × JSVal)) : String :=
  ((insertionSortB keyLe data).map Prod.snd).foldl
    (fun acc v => if skipValue v then acc else acc ++ appendRender v) ""

/-! ## SHA-512 and HMAC, the primitives behind `createHmac('sha512', ...)`

FIPS 180-4 SHA-512 over byte lists (bytes and 64-bit words are `Nat`, with
`% 2^64` where overflow matters), then RFC 2104 HMAC.  The round constants
and the initial hash value are computed from their FIPS definitions (the
fractional parts of the cube and square roots of the first primes), rather
than transcribed. -/

/-- `2^64`, the word modulus of SHA-512. -/
def w64 : Nat := 18446744073709551616

/-- Right rotation of a 64-bit word. -/
def rotr64 (n x : Nat) : Nat := ((x >>> n) ||| (x <<< (64 - n))) % w64

/-- Bisection step for the integer cube root. -/
def cbrtAux (n : Nat) : Nat → Nat → Nat → Nat
  | 0, lo, _ => lo
  | fuel + 1, lo, hi =>
    if hi ≤ lo + 1 then lo
    else
      let mid := (lo + hi) / 2
      if mid ^ 3 ≤ n then cbrtAux n fuel mid hi else cbrtAux n fuel lo mid

/-- Integer cube root. -/
def icbrt (n : Nat) : Nat := cbrtAux n 400 0 (n + 1)

/-- The first 80 primes, the inputs to the SHA-512 constant schedule. -/
def first80Primes : List Nat :=
  [2, 3, 5, 7, 11, 13, 17, 19, 23, 29, 31, 37, 41, 43, 47, 53, 59, 61, 67,
   71, 73, 79, 83, 89, 97, 101, 103, 107, 109, 113, 127, 131, 137, 139, 149,
   151, 157, 163, 167, 173, 179, 181, 191, 193, 197, 199, 211, 223, 227, 229,
   233, 239, 241, 251, 257, 263, 269, 271, 277, 281, 283, 293, 307, 311, 313,
   317, 331, 337, 347, 349, 353, 359, 367, 373, 379, 383, 389, 397, 401, 409]

/-- SHA-512 round constants: the first 64 bits of the fractional parts of the
cube roots of the first 80 primes. -/
def sha512K : List Nat :=
  first80Primes.map (fun p => icbrt (p * 2 ^ 192) % w64)

/-- The eight working variables of the compression function. -/
structure Hash8 where
  h0 : Nat
  h1 : Nat
  h2 : Nat
  h3 : Nat
  h4 : Nat
  h5 : Nat
  h6 : Nat
  h7 : Nat

/-- SHA-512 initial hash value: the first 64 bits of the fractional parts of
the square roots of the first 8 primes. -/
def sha512Init : Hash8 :=
  match (first80Primes.take 8).map (fun p => Nat.sqrt (p * 2 ^ 128) % w64) with
  | [a, b, c, d, e, f, g, h] => ⟨a, b, c, d, e, f, g, h⟩
  | _ => ⟨0, 0, 0, 0, 0, 0, 0, 0⟩

/-- Message padding: append `0x80`, zero bytes, then the message bit length
as a 16-byte big-endian integer, to a multiple of 128 bytes. -/
def padMessage (msg : List Nat) : List Nat :=
  let len := msg.length
  let zeros := (240 - (len + 1) % 128) % 128
  let bitLen := len * 8
  msg ++ 128 :: List.replicate zeros 0 ++
    (List.range 16).map (fun i => (bitLen >>> ((15 - i) * 8)) % 256)

/-- Big-endian grouping of bytes into 64-bit words. -/
def bytesToWords : List Nat → List Nat
  | b0 :: b1 :: b2 :: b3 :: b4 :: b5 :: b6 :: b7 :: rest =>
    ((((((((b0 * 256 + b1) * 256 + b2) * 256 + b3) * 256 + b4) * 256 + b5) *
      256 + b6) * 256 + b7) % w64) :: bytesToWords rest
  | _ => []

/-- Split a word list into 16-word blocks. -/
def chunk16 : List Nat → List (List Nat)
  | [] => []
  | w :: ws => ((w :: ws).take 16) :: chunk16 (ws.drop 15)
termination_by l => l.length
decreasing_by simp [List.length_drop]; omega

/-- σ₀ of the SHA-512 message schedule. -/
def smallSigma0 (x : Nat) : Nat := rotr64 1 x ^^^ rotr64 8 x ^^^ (x >>> 7)

/-- σ₁ of the SHA-512 message schedule. -/
def smallSigma1 (x : Nat) : Nat := rotr64 19 x ^^^ rotr64 61 x ^^^ (x >>> 6)

/-- Σ₀ of the SHA-512 round function. -/
def bigSigma0 (x : Nat) : Nat := rotr64 28 x ^^^ rotr64 34 x ^^^ rotr64 39 x

/-- Σ₁ of the SHA-512 round function. -/
def bigSigma1 (x : Nat) : Nat := rotr64 14 x ^^^ rotr64 18 x ^^^ rotr64 41 x

/-- The choice function `Ch`. -/
def ch64 (e f g : Nat) : Nat := (e &&& f) ^^^ ((e ^^^ (w64 - 1)) &&& g)

/-- The majority function `Maj`. -/
def maj64 (a b c : Nat) : Nat := (a &&& b) ^^^ (a &&& c) ^^^ (b &&& c)

/-- Extend a 16-word block to the 80-word message schedule. -/
def extendSchedule : Nat → List Nat → List Nat
  | 0, ws => ws
  | fuel + 1, ws =>
    let n := ws.length
    extendSchedule fuel (ws ++
      [(smallSigma1 (ws.getD (n - 2) 0) + ws.getD (n - 7) 0 +
        smallSigma0 (ws.getD (n - 15) 0) + ws.getD (n - 16) 0) % w64])

/-- One round of the SHA-512 compression function. -/
def compressRound (st : Hash8) (k : Nat) (w : Nat) : Hash8 :=
  let t1 := (st.h7 + bigSigma1 st.h4 + ch64 st.h4 st.h5 st.h6 + k + w) % w64
  let t2 := (bigSigma0 st.h0 + maj64 st.h0 st.h1 st.h2) % w64
  ⟨(t1 + t2) % w64, st.h0, st.h1, st.h2, (st.h3 + t1) % w64, st.h4, st.h5, st.h6⟩

/-- Process one 16-word block: 80 rounds, then add into the running hash. -/
def compressBlock (st : Hash8) (block : List Nat) : Hash8 :=
  let ws := extendSchedule 64 block
  let r := (sha512K.zip ws).foldl (fun s kw => compressRound s kw.1 kw.2) st
  ⟨(st.h0 + r.h0) % w64, (st.h1 + r.h1) % w64, (st.h2 + r.h2) % w64,
   (st.h3 + r.h3) % w64, (st.h4 + r.h4) % w64, (st.h5 + r.h5) % w64,
   (st.h6 + r.h6) % w64, (st.h7 + r.h7) % w64⟩

/-- Big-endian bytes of a 64-bit word. -/
def wordBytes (x : Nat) : List Nat :=
  (List.range 8).map (fun i => (x >>> ((7 - i) * 8)) % 256)

/-- SHA-512 of a byte list. -/
def sha512 (msg : List Nat) : List Nat :=
  let h := (chunk16 (bytesToWords (padMessage msg))).foldl compressBlock sha512Init
  ([h.h0, h.h1, h.h2, h.h3, h.h4, h.h5, h.h6, h.h7].map wordBytes).flatten

/-- HMAC-SHA512 (RFC 2104): keys longer than the 128-byte block are hashed,
then padded with zeros; inner pad `0x36`, outer pad `0x5c`. -/
def hmacSha512 (key msg : List Nat) : List Nat :=
  let k0 := if 128 < key.length then sha512 key else key
  let k := k0 ++ List.replicate (128 - k0.length) 0
  sha512 ((k.map (fun b => b ^^^ 92)) ++ sha512 ((k.map (fun b => b ^^^ 54)) ++ msg))

/-- Lowercase hexadecimal digit. -/
def hexDigitChar (n : Nat) : Char :=
  if n < 10 then Char.ofNat (48 + n) else Char.ofNat (87 + n)

/-- Two lowercase hex characters of a byte, the `digest('hex')` encoding. -/
def byteToHex (b : Nat) : String :=
  String.mk [hexDigitChar (b / 16 % 16), hexDigitChar (b % 16)]

/-- Lowercase hex string of a byte list. -/
def bytesToHex (bs : List Nat) : String :=
  String.join (bs.map byteToHex)

/-- UTF-8 bytes of one character (`Buffer.from(string)` encoding). -/
def utf8Char (c : Char) : List Nat :=
  let n := c.toNat
  if n < 128 then [n]
  else if n < 2048 then [192 + n / 64, 128 + n % 64]
  else if n < 65536 then [224 + n / 4096, 128 + (n / 64) % 64, 128 + n % 64]
  else [240 + n / 262144, 128 + (n / 4096) % 64, 128 + (n / 64) % 64, 128 + n % 64]

/-- UTF-8 bytes of a string. -/
def utf8Bytes (s : String) : List Nat :=
  (s.data.map utf8Char).flatten

/-- ASCII lowercasing of one character.  `String.prototype.toLowerCase` is
Unicode-aware, but every string that reaches line 343 in this development is
ASCII, where the two agree. -/
def toLowerChar (c : Char) : Char :=
  if 65 ≤ c.toNat && c.toNat ≤ 90 then Char.ofNat (c.toNat + 32) else c

/-- Lowercase a string character by character. -/
def lowerString (s : String) : String := String.mk (s.data.map toLowerChar)

/-- The string the HMAC is computed over on line 343:
`stringData.toLowerCase()` where `stringData` is the canonical string with
the generator's own `Date.now()` appended (line 341). -/
def signedMaterial (data : List (String × JSVal)) (timestamp : Nat) : String :=
  lowerString (canonicalString data ++ toString timestamp)

/-- `#generateSignature` (lines 327-345): HMAC-SHA512 of the lowercased
canonical string plus timestamp, keyed by the secret key's UTF-8 bytes,
hex encoded.  `timestamp` is the `Date.now()` the generator itself captures
on line 329 - the generator returns only the hex digest, not the timestamp. -/
def generateSignature (secretKey : String) (data : List (String × JSVal))
    (timestamp : Nat) : String :=
  bytesToHex (hmacSha512 (utf8Bytes secretKey) (utf8Bytes (signedMaterial data timestamp)))

/-! ## JSON serialization, as used by the response interceptor's
`JSON.stringify(error.response.data)` on line 60. -/

/-- JSON string escaping of one character: quote, backslash, and control
characters are escaped; everything else passes through. -/
def jsonEscapeChar (c : Char) : String :=
  if c = '"' then "\\\""
  else if c = '\\' then "\\\\"
  else if c.toNat = 8 then "\\b"
  else if c.toNat = 9 then "\\t"
  else if c.toNat = 10 then "\\n"
  else if c.toNat = 12 then "\\f"
  else if c.toNat = 13 then "\\r"
  else if c.toNat < 32 then "\\u00" ++ byteToHex c.toNat
  else String.mk [c]

/-- JSON rendering of a string literal. -/
def jsonQuote (s : String) : String :=
  "\"" ++ String.join (s.data.map jsonEscapeChar) ++ "\""

mutual
/-- `JSON.stringify`: object fields with `undefined` values are omitted,
`undefined` array elements render as `null`.  (`JSON.stringify(undefined)`
itself yields the undefined value, which the interceptor's template string
would render as `"undefined"`.) -/
def jsonStringify : JSVal → String
  | .str s => jsonQuote s
  | .num r => r
  | .bool b => if b then "true" else "false"
  | .null => "null"
  | .undefined => "undefined"
  | .arr xs => "[" ++ jsonStringifyElems xs ++ "]"
  | .obj fields => "\x7b" ++ jsonStringifyFields fields ++ "\x7d"

/-- Comma-joined array elements. -/
def jsonStringifyElems : List JSVal → String
  | [] => ""
  | [.undefined] => "null"
  | [v] => jsonStringify v
  | .undefined :: vs => "null," ++ jsonStringifyElems vs
  | v :: vs => jsonStringify v ++ "," ++ jsonStringifyElems vs

/-- Comma-joined object fields, skipping `undefined`-valued ones. -/
def jsonStringifyFields : List (String × JSVal) → String
  | [] => ""
  | [(k, v)] =>
    match v with
    | .undefined => ""
    | _ => jsonQuote k ++ ":" ++ jsonStringify v
  | (k, v) :: fs =>
    match v with
    | .undefined => jsonStringifyFields fs
    | _ => jsonQuote k ++ ":" ++ jsonStringify v ++ "," ++ jsonStringifyFields fs
end

/-! ## The client: configuration, header slots, dispatch

The axios instance created in the constructor owns mutable default header
slots; `X-Timestamp` and `X-Signature` are written into them before each
signed dispatch.  The slots become the explicit `HeaderState` threaded
through every operation.  Each `Date.now()` call site becomes one explicit
`Nat` argument, in source order.  A dispatched HTTP exchange becomes a
`SentRequest` value. -/

/-- An exception surfaced by the client code.  `thrown m` is
`throw new Error(m)`; `referenceError x` is the JavaScript `ReferenceError`
raised when the undeclared identifier `x` is evaluated. -/
inductive JSError where
  | thrown (message : String)
  | referenceError (name : String)

/-- The configuration captured by the constructor (lines 34-42). -/
structure ClientConfig where
  apiKey : String
  secretKey : String
  resultUrl : String := ""
  failUrl : String := ""
  successUrl : String := ""
  priorityGame : JSVal := .num "730"

/-- The mutable `X-Timestamp` / `X-Signature` default header slots of the
shared axios instance.  A fresh client has neither slot set. -/
structure HeaderState where
  xTimestamp : Option Nat := none
  xSignature : Option String := none

/-- One dispatched HTTP exchange: the header slots as transmitted, and the
parameter set sent as body or query. -/
structure SentRequest where
  meth : String
  path : String
  headers : HeaderState
  params : List (String × JSVal)

/-- The constructor's credential guards (lines 28-32): a missing or empty
(falsy) API key or secret key throws synchronously, before any transport
is configured. -/
def mkSkinvedAPI (apiKey secretKey : Option String) : Except JSError ClientConfig :=
  match apiKey with
  | none => .error (.thrown "API key is required")
  | some a =>
    if a == "" then .error (.thrown "API key is required")
    else
      match secretKey with
      | none => .error (.thrown "Secret Key is required")
      | some s =>
        if s == "" then .error (.thrown "Secret Key is required")
        else .ok { apiKey := a, secretKey := s }

/-- `CreateDeposit` (lines 76-99): validate, build the parameter object,
write `Date.now()` into the timestamp slot (line 93, tick `t0`), write the
signature over the parameters into the signature slot (line 94; the
generator captures its own `Date.now()`, tick `t1`), then POST. -/
def createDeposit (cfg : ClientConfig) (st : HeaderState) (t0 t1 : Nat)
    (deposit_id steam_id trade_url min_amount : JSVal) :
    Except JSError (HeaderState × SentRequest) :=
  if jsFalsy deposit_id then .error (.thrown "Deposit ID is required")
  else
    let params := [("deposit_id", deposit_id), ("steam_id", steam_id),
      ("trade_url", trade_url), ("min_amount", min_amount),
      ("result_url", .str cfg.resultUrl), ("fail_url", .str cfg.failUrl),
      ("success_url", .str cfg.successUrl), ("priority_game", cfg.priorityGame)]
    let st' : HeaderState :=
      ⟨some t0, some (generateSignature cfg.secretKey params t1)⟩
    .ok (st', ⟨"POST", "deposit", st', params⟩)

/-- A GET dispatch whose `params` go through the constructor's
`paramsSerializer` (lines 48-53).  Axios resolves the request's headers by
merging `defaults.headers` when `request()` is entered; `buildURL`, which
invokes the serializer, runs later, inside the adapter.  So this request is
transmitted with the header slots as they were on entry (`st`), while the
values the serializer writes - `Date.now()` on line 50 (tick `t0`) and the
signature over exactly these params on line 51 (the generator's own
`Date.now()` is tick `t1`) - are left in the shared slots and ride the
*next* request. -/
def getWithParams (cfg : ClientConfig) (st : HeaderState) (t0 t1 : Nat)
    (path : String) (params : List (String × JSVal)) :
    HeaderState × SentRequest :=
  let st' : HeaderState :=
    ⟨some t0, some (generateSignature cfg.secretKey params t1)⟩
  (st', ⟨"GET", path, st, params⟩)

/-- `GetStatusDeposit` (lines 147-154): validate, then GET with the
`trade_id` query parameter. -/
def getStatusDeposit (cfg : ClientConfig) (st : HeaderState) (t0 t1 : Nat)
    (trade_id : JSVal) : Except JSError (HeaderState × SentRequest) :=
  if jsFalsy trade_id then .error (.thrown "Trade ID is required")
  else .ok (getWithParams cfg st t0 t1 "deposit/status" [("trade_id", trade_id)])

/-- `GetProjectBalance` (lines 190-194): `this.client.get('project/balance')`
with no `params`, so axios never invokes the `paramsSerializer` (there is
nothing to serialize) and no code path writes the header slots: the request
goes out with whatever the shared slots already hold. -/
def getProjectBalance (cfg : ClientConfig) (st : HeaderState) :
    HeaderState × SentRequest :=
  (st, ⟨"GET", "project/balance", st, []⟩)

/-- `CreateOffer` (lines 110-140): validate, sign and POST the deposit
parameters (ticks `t0`, `t1`), read `trade_id` from the first response
(modelled by `firstTradeId`), build and sign the trade parameters (ticks
`t2`, `t3`) - and then line 137 posts the undeclared variable `params`
(the trade parameters were built as `TradeParams`), so evaluating the
request body raises a `ReferenceError` and the second request is never
dispatched. -/
def createOffer (cfg : ClientConfig) (st : HeaderState) (t0 t1 t2 t3 : Nat)
    (deposit_id steam_id app_id trade_url item_array firstTradeId : JSVal) :
    List SentRequest × HeaderState × Except JSError JSVal :=
  if jsFalsy deposit_id then ([], st, .error (.thrown "Deposit ID is required"))
  else
    let DepositParams := [("deposit_id", deposit_id), ("steam_id", steam_id)]
    let st1 : HeaderState :=
      ⟨some t0, some (generateSignature cfg.secretKey DepositParams t1)⟩
    let req1 : SentRequest := ⟨"POST", "deposit", st1, DepositParams⟩
    let TradeParams := [("app_id", app_id), ("trade_id", firstTradeId),
      ("trade_url", trade_url), ("item_array", item_array)]
    let st2 : HeaderState :=
      ⟨some t2, some (generateSignature cfg.secretKey TradeParams t3)⟩
    ([req1], st2, .error (.referenceError "params"))

/-- Evaluation of a bare identifier against the names in scope: an
undeclared name raises a `ReferenceError`. -/
def lookupVar (scope : List (String × JSVal)) (name : String) :
    Except JSError JSVal :=
  match scope.find? (fun p => p.1 == name) with
  | some p => .ok p.2
  | none => .error (.referenceError name)

/-- `BuySkin` (lines 270-291).  Line 272 guards on `!trade_id`, but
`trade_id` is not among `BuySkin`'s parameters or locals (they are
`internal_id`, `partner`, `partner_token`, `app_id`, `max_price`,
`item_id`, `full_name`), so the guard's evaluation is modelled as a scope
lookup; on failure nothing is signed or dispatched.  The remaining branch
mirrors lines 275-290. -/
def buySkin (cfg : ClientConfig) (st : HeaderState) (t0 t1 : Nat)
    (internal_id partner partner_token app_id max_price item_id full_name : JSVal) :
    List SentRequest × Except JSError Unit :=
  let scope := [("internal_id", internal_id), ("partner", partner),
    ("partner_token", partner_token), ("app_id", app_id),
    ("max_price", max_price), ("item_id", item_id), ("full_name", full_name)]
  match lookupVar scope "trade_id" with
  | .error e => ([], .error e)
  | .ok v =>
    if jsFalsy v then ([], .error (.thrown "Trade ID is required"))
    else
      let params := scope
      let st' : HeaderState :=
        ⟨some t0, some (generateSignature cfg.secretKey params t1)⟩
      ([⟨"POST", "withdraw/buy", st', params⟩], .ok ())

/-! ## The response interceptor (lines 56-65) -/

/-- The outcome of one transport attempt, the three-way distinction axios
reports through `error.response` / `error.request` / neither. -/
inductive TransportOutcome where
  | response (status : Nat) (body : JSVal)
  | noResponse
  | setupFailure (message : String)

/-- The three error kinds of the specification's taxonomy. -/
inductive NormalizedError where
  | serverError (status : Nat) (body : String)
  | noResponseError
  | transportError (message : String)

/-- The response interceptor: a 2xx response passes through (axios's default
`validateStatus` accepts exactly `200 <= status < 300`); a non-2xx response
becomes `serverError` with the status and the JSON-serialized body
(line 60); a sent-but-unanswered request becomes `noResponseError`
(line 62); anything else becomes `transportError` with the failure message
(line 64). -/
def interceptResponse : TransportOutcome → Except NormalizedError JSVal
  | .response s b =>
    if 200 ≤ s ∧ s < 300 then .ok b
    else .error (.serverError s (jsonStringify b))
  | .noResponse => .error .noResponseError
  | .setupFailure m => .error (.transportError m)

/-- The message text of the `Error` the interceptor actually throws. -/
def errorMessage : NormalizedError → String
  | .serverError s b => "SkinVend API Error: " ++ toString s ++ " - " ++ b
  | .noResponseError => "SkinVend API Error: No response received"
  | .transportError m => "SkinVend API Error: " ++ m

/-- A concrete configuration used by the concrete theorems: the example
credentials of the specification's §8.6, all other options defaulted. -/
def exampleCfg : ClientConfig := { apiKey := "k", secretKey := "s3cr3t" }

/-- The parameter object `CreateDeposit` builds for
`CreateDeposit("D1")` under `exampleCfg` (lines 81-91 with the defaulted
arguments `steam_id = null`, `trade_url = ''`, `min_amount = 0.5`). -/
def cdParams : List (String × JSVal) :=
  [("deposit_id", .str "D1"), ("steam_id", .null), ("trade_url", .str ""),
   ("min_amount", .num "0.5"), ("result_url", .str ""), ("fail_url", .str ""),
   ("success_url", .str ""), ("priority_game", .num "730")]

/-- No key of the mapping is an initial segment of another key (in particular
all keys are distinct).  Under this side condition the `"key,value"` pair
comparison of the default sort coincides with comparison of the keys alone. -/
def keysIndependentB : List (String × JSVal) → Bool
  | [] => true
  | p :: l =>
    (l.all fun q => !isInitSegB p.1.data q.1.data && !isInitSegB q.1.data p.1.data) &&
      keysIndependentB l

/-- No key of the mapping is an array-index string, so `Object.fromEntries`
performs no reordering. -/
def noIndexKeysB (l : List (String × JSVal)) : Bool :=
  l.all fun p => !isArrayIndexKey p.1

/-- Sortedness for a `Bool` comparator: every earlier element compares `≤`
to every later one. -/
def SortedB (le : α → α → Bool) (l : List α) : Prop :=
  List.Pairwise (fun a b => le a b = true) l

/-! ## Lemmas about the comparators and the stable sort -/

theorem charListLe_refl (l : List Char) : charListLe l l = true := by
  induction l with
  | nil => rfl
  | cons a l ih => simp [charListLe, ih]

theorem charListLe_total (a b : List Char) :
    (charListLe a b || charListLe b a) = true := by
  induction a generalizing b with
  | nil => simp [charListLe]
  | cons x xs ih =>
    cases b with
    | nil => simp [charListLe]
    | cons y ys =>
      simp only [charListLe]
      by_cases h1 : x.toNat < y.toNat
      · simp [h1]
      · by_cases h2 : y.toNat < x.toNat
        · simp [h1, h2]
        · simp [h1, h2, ih ys]

theorem charListLe_trans (a b c : List Char) (hab : charListLe a b = true)
    (hbc : charListLe b c = true) : charListLe a c = true := by
  induction a generalizing b c with
  | nil => simp [charListLe]
  | cons x xs ih =>
    cases b with
    | nil => simp [charListLe] at hab
    | cons y ys =>
      cases c with
      | nil => simp [charListLe] at hbc
      | cons z zs =>
        simp only [charListLe] at hab hbc ⊢
        by_cases h1 : x.toNat < y.toNat
        · by_cases h2 : y.toNat < z.toNat
          · simp [show x.toNat < z.toNat by omega]
          · by_cases h3 : z.toNat < y.toNat
            · simp [h2, h3] at hbc
            · simp [show x.toNat < z.toNat by omega]
        · by_cases h1' : y.toNat < x.toNat
          · simp [h1, h1'] at hab
          · simp only [if_neg h1, if_neg h1'] at hab
            by_cases h2 : y.toNat < z.toNat
            · simp [show x.toNat < z.toNat by omega]
            · by_cases h3 : z.toNat < y.toNat
              · simp [h2, h3] at hbc
              · simp only [if_neg h2, if_neg h3] at hbc
                have hx : ¬ x.toNat < z.toNat := by omega
                have hz : ¬ z.toNat < x.toNat := by omega
                simp [hx, hz, ih ys zs hab hbc]

theorem charListLe_append (as bs x y : List Char)
    (h1 : isInitSegB as bs = false) (h2 : isInitSegB bs as = false) :
    charListLe (as ++ x) (bs ++ y) = charListLe as bs := by
  induction as generalizing bs with
  | nil => simp [isInitSegB] at h1
  | cons a as ih =>
    cases bs with
    | nil => simp [isInitSegB] at h2
    | cons b bs =>
      simp only [List.cons_append, charListLe]
      by_cases hlt : a.toNat < b.toNat
      · simp [hlt]
      · by_cases hgt : b.toNat < a.toNat
        · simp [hlt, hgt]
        · have heq : a.toNat = b.toNat := by omega
          simp only [isInitSegB, heq, beq_self_eq_true, Bool.true_and] at h1
          simp only [isInitSegB, heq, beq_self_eq_true, Bool.true_and] at h2
          simp [hlt, hgt, ih bs h1 h2]

theorem orderedInsertB_congr (le1 le2 : α → α → Bool) (a : α) (l : List α)
    (h : ∀ b ∈ l, le1 a b = le2 a b) :
    orderedInsertB le1 a l = orderedInsertB le2 a l := by
  induction l with
  | nil => rfl
  | cons b l ih =>
    simp only [orderedInsertB]
    rw [h b (by simp), ih fun c hc => h c (by simp [hc])]

theorem orderedInsertB_perm (le : α → α → Bool) (a : α) (l : List α) :
    List.Perm (orderedInsertB le a l) (a :: l) := by
  induction l with
  | nil => exact List.Perm.refl _
  | cons b l ih =>
    simp only [orderedInsertB]
    cases hb : le a b
    · simp only [Bool.false_eq_true, if_false]
      exact (List.Perm.cons b ih).trans (List.Perm.swap a b l)
    · simp

theorem insertionSortB_perm (le : α → α → Bool) (l : List α) :
    List.Perm (insertionSortB le l) l := by
  induction l with
  | nil => exact List.Perm.refl _
  | cons a l ih =>
    exact (orderedInsertB_perm le a (insertionSortB le l)).trans (List.Perm.cons a ih)

theorem mem_insertionSortB (le : α → α → Bool) (l : List α) (b : α) :
    b ∈ insertionSortB le l ↔ b ∈ l :=
  (insertionSortB_perm le l).mem_iff

theorem insertionSortB_congr (le1 le2 : α → α → Bool) (l : List α)
    (h : ∀ a ∈ l, ∀ b ∈ l, le1 a b = le2 a b) :
    insertionSortB le1 l = insertionSortB le2 l := by
  induction l with
  | nil => rfl
  | cons a l ih =>
    simp only [insertionSortB]
    rw [ih fun c hc => fun d hd => h c (by simp [hc]) d (by simp [hd])]
    exact orderedInsertB_congr le1 le2 a _ fun b hb =>
      h a (by simp) b (by simp [(mem_insertionSortB le2 l b).mp hb])

theorem sorted_orderedInsertB (le : α → α → Bool)
    (htot : ∀ a b, (le a b || le b a) = true)
    (htrans : ∀ a b c, le a b = true → le b c = true → le a c = true)
    (a : α) (l : List α) (h : SortedB le l) :
    SortedB le (orderedInsertB le a l) := by
  induction l with
  | nil => simp [SortedB, orderedInsertB]
  | cons b l ih =>
    rw [SortedB, List.pairwise_cons] at h
    obtain ⟨hb, hl⟩ := h
    simp only [orderedInsertB]
    cases hab : le a b
    · have hba : le b a = true := by
        have := htot a b
        simp [hab] at this
        exact this
      simp only [Bool.false_eq_true, if_false]
      rw [SortedB, List.pairwise_cons]
      refine ⟨?_, ih hl⟩
      intro y hy
      rcases List.mem_cons.mp ((orderedInsertB_perm le a l).mem_iff.mp hy) with hya | hyl
      · exact hya ▸ hba
      · exact hb y hyl
    · simp only [if_true]
      rw [SortedB, List.pairwise_cons]
      refine ⟨?_, List.pairwise_cons.mpr ⟨hb, hl⟩⟩
      intro y hy
      rcases List.mem_cons.mp hy with hyb | hyl
      · exact hyb ▸ hab
      · exact htrans a b y hab (hb y hyl)

theorem sorted_insertionSortB (le : α → α → Bool)
    (htot : ∀ a b, (le a b || le b a) = true)
    (htrans : ∀ a b c, le a b = true → le b c = true → le a c = true)
    (l : List α) : SortedB le (insertionSortB le l) := by
  induction l with
  | nil => exact List.Pairwise.nil
  | cons a l ih => exact sorted_orderedInsertB le htot htrans a _ ih

theorem orderedInsertB_cons_of_le_all (le : α → α → Bool) (a : α) (l : List α)
    (h : ∀ y ∈ l, le a y = true) : orderedInsertB le a l = a :: l := by
  cases l with
  | nil => rfl
  | cons b l => simp [orderedInsertB, h b (by simp)]

theorem filter_orderedInsertB (le : α → α → Bool) (q : α → Bool)
    (htrans : ∀ a b c, le a b = true → le b c = true → le a c = true)
    (a : α) (l : List α) (h : SortedB le l) :
    (orderedInsertB le a l).filter q =
      if q a then orderedInsertB le a (l.filter q) else l.filter q := by
  induction l with
  | nil =>
    cases hqa : q a <;> simp [orderedInsertB, List.filter, hqa]
  | cons b t ih =>
    rw [SortedB, List.pairwise_cons] at h
    obtain ⟨hb, hl⟩ := h
    simp only [orderedInsertB]
    cases hab : le a b
    · simp only [Bool.false_eq_true, if_false]
      rw [List.filter_cons, ih hl, List.filter_cons]
      cases hqa : q a <;> cases hqb : q b <;>
        simp [hqa, hqb, orderedInsertB, hab]
    · simp only [if_true]
      rw [List.filter_cons]
      cases hqa : q a
      · simp only [hqa, Bool.false_eq_true, if_false]
      · simp only [hqa, if_true]
        rw [orderedInsertB_cons_of_le_all le a ((b :: t).filter q)]
        intro y hy
        rcases List.mem_cons.mp (List.mem_filter.mp hy).1 with h1 | h1
        · exact h1 ▸ hab
        · exact htrans a b y hab (hb y h1)

theorem filter_insertionSortB (le : α → α → Bool) (q : α → Bool)
    (htot : ∀ a b, (le a b || le b a) = true)
    (htrans : ∀ a b c, le a b = true → le b c = true → le a c = true)
    (l : List α) :
    (insertionSortB le l).filter q = insertionSortB le (l.filter q) := by
  induction l with
  | nil => rfl
  | cons a l ih =>
    simp only [insertionSortB]
    rw [filter_orderedInsertB le q htrans a _ (sorted_insertionSortB le htot htrans l), ih]
    rw [List.filter_cons]
    cases hqa : q a <;> simp [hqa, insertionSortB]

theorem entLe_total (p q : String × JSVal) : (entLe p q || entLe q p) = true :=
  charListLe_total _ _

theorem entLe_trans (p q r : String × JSVal) (h1 : entLe p q = true)
    (h2 : entLe q r = true) : entLe p r = true :=
  charListLe_trans _ _ _ h1 h2

theorem keyNumLe_total (p q : String × JSVal) : (keyNumLe p q || keyNumLe q p) = true := by
  simp only [keyNumLe]
  rcases Nat.le_total (digitsToNat p.1.data) (digitsToNat q.1.data) with h | h <;>
    simp [Nat.ble_eq, h]

theorem keyNumLe_trans (p q r : String × JSVal) (h1 : keyNumLe p q = true)
    (h2 : keyNumLe q r = true) : keyNumLe p r = true := by
  simp only [keyNumLe, Nat.ble_eq] at h1 h2 ⊢
  omega

/-- The accumulator loop ignores skipped values: folding over a value list
equals folding over the list with the skipped values removed. -/
theorem foldl_skip_eq_foldl_filter (vs : List JSVal) : ∀ acc : String,
    vs.foldl (fun acc v => if skipValue v then acc else acc ++ appendRender v) acc =
      (vs.filter fun v => !skipValue v).foldl
        (fun acc v => if skipValue v then acc else acc ++ appendRender v) acc := by
  induction vs with
  | nil => intro acc; rfl
  | cons v vs ih =>
    intro acc
    rw [List.foldl_cons, List.filter_cons]
    cases hv : skipValue v <;> simp [hv, ih]

/-- Filtering the values of an entry list on the value component commutes
with projecting to the values. -/
theorem map_snd_filter_skip (l : List (String × JSVal)) :
    (l.map Prod.snd).filter (fun v => !skipValue v) =
      (l.filter fun p => !skipValue p.2).map Prod.snd := by
  induction l with
  | nil => rfl
  | cons p l ih =>
    rw [List.map_cons, List.filter_cons, List.filter_cons]
    cases hp : skipValue p.2 <;> simp [hp, ih]

theorem filter_swap (p q : α → Bool) (l : List α) :
    (l.filter p).filter q = (l.filter q).filter p := by
  induction l with
  | nil => rfl
  | cons a l ih =>
    rw [List.filter_cons, List.filter_cons]
    cases hp : p a <;> cases hq : q a <;>
      simp [List.filter_cons, hp, hq, ih]

/-- `Object.fromEntries` enumeration order commutes with removing entries:
dropping some entries and then enumerating gives the same sequence as
enumerating and then dropping them. -/
theorem fromEntriesOrder_filter (q : String × JSVal → Bool) (l : List (String × JSVal)) :
    (fromEntriesOrder l).filter q = fromEntriesOrder (l.filter q) := by
  simp only [fromEntriesOrder, List.filter_append]
  rw [filter_insertionSortB keyNumLe q keyNumLe_total keyNumLe_trans,
    filter_swap, filter_swap (fun p => !isArrayIndexKey p.1) q]

/-- The stable sort of line 330 commutes with removing entries. -/
theorem sortEntries_filter (q : String × JSVal → Bool) (l : List (String × JSVal)) :
    (sortEntries l).filter q = sortEntries (l.filter q) :=
  filter_insertionSortB entLe q entLe_total entLe_trans l

/-- Line 331-340's fold ignores entries with skipped values entirely:
canonicalizing a mapping equals canonicalizing the mapping with the
null/undefined/array/object-valued entries removed. -/
theorem canonicalString_filter (data : List (String × JSVal)) :
    canonicalString data = canonicalString (data.filter fun p => !skipValue p.2) := by
  unfold canonicalString
  rw [foldl_skip_eq_foldl_filter, map_snd_filter_skip, fromEntriesOrder_filter,
    sortEntries_filter]

theorem pairwise_mem_of_symm {R : α → α → Prop} (hs : ∀ a b, R a b → R b a)
    (l : List α) (hp : List.Pairwise R l) :
    ∀ a ∈ l, ∀ b ∈ l, a ≠ b → R a b := by
  induction l with
  | nil => intro a ha; simp at ha
  | cons x t ih =>
    rw [List.pairwise_cons] at hp
    obtain ⟨hx, ht⟩ := hp
    intro a ha b hb hne
    rcases List.mem_cons.mp ha with rfl | ha'
    · rcases List.mem_cons.mp hb with rfl | hb'
      · exact absurd rfl hne
      · exact hx b hb'
    · rcases List.mem_cons.mp hb with rfl | hb'
      · exact hs _ _ (hx a ha')
      · exact ih ht a ha' b hb' hne

theorem pairwise_of_keysIndependent (l : List (String × JSVal))
    (h : keysIndependentB l = true) :
    List.Pairwise (fun p q : String × JSVal =>
      isInitSegB p.1.data q.1.data = false ∧ isInitSegB q.1.data p.1.data = false) l := by
  induction l with
  | nil => exact List.Pairwise.nil
  | cons p t ih =>
    simp only [keysIndependentB, Bool.and_eq_true, List.all_eq_true] at h
    obtain ⟨hall, ht⟩ := h
    refine List.pairwise_cons.mpr ⟨?_, ih ht⟩
    intro q hq
    have hpq := hall q hq
    simp only [Bool.and_eq_true, Bool.not_eq_true'] at hpq
    exact hpq

/-- For keys where neither is an initial segment of the other, the
`"key,value"` pair comparison of line 330 agrees with comparison of the
keys alone. -/
theorem entLe_eq_keyLe_of_independent (p q : String × JSVal)
    (h1 : isInitSegB p.1.data q.1.data = false)
    (h2 : isInitSegB q.1.data p.1.data = false) :
    entLe p q = keyLe p q :=
  charListLe_append p.1.data q.1.data _ _ h1 h2

/-! ## Claim theorems -/

/-- C1: the claim says the value transmitted in the timestamp header is the
exact timestamp folded into the signed material.  In the code the two come
from two separate `Date.now()` calls (line 93 for the header, line 329
inside the generator for the material), and the generator returns only the
hex digest.  Evaluated where the clock ticks between the two calls: the
header carries `1700000000000` while the signed material folds
`1700000000001`, and the two materials differ. -/
theorem header_timestamp_not_the_signed_timestamp :
    (createDeposit exampleCfg ⟨none, none⟩ 1700000000000 1700000000001
        (.str "D1") .null (.str "") (.num "0.5")).map
      (fun r => r.2.headers.xTimestamp) = .ok (some 1700000000000)
  ∧ (createDeposit exampleCfg ⟨none, none⟩ 1700000000000 1700000000001
        (.str "D1") .null (.str "") (.num "0.5")).map
      (fun r => r.2.headers.xSignature) =
      .ok (some (generateSignature "s3cr3t" cdParams 1700000000001))
  ∧ (signedMaterial cdParams 1700000000001 ==
      signedMaterial cdParams 1700000000000) = false :=
  ⟨rfl, rfl, by decide⟩

/-- C2 counterexample: GET calls transmit no freshly computed headers.  On a
fresh client, `GetStatusDeposit` - a GET that does carry query parameters -
goes out with neither a timestamp nor a signature header (its fresh pair is
merely left in the shared slots), and the parameterless `GetProjectBalance`
likewise transmits nothing fresh; after a `CreateDeposit`, `GetProjectBalance`
transmits the previous call's header values verbatim. -/
theorem get_requests_transmit_stale_headers_counterexample :
    (getStatusDeposit exampleCfg ⟨none, none⟩ 5 6 (.str "T1")).map
      (fun r => r.2.headers) = .ok ⟨none, none⟩
  ∧ (getProjectBalance exampleCfg ⟨none, none⟩).2.headers = ⟨none, none⟩
  ∧ (createDeposit exampleCfg ⟨none, none⟩ 1 2 (.str "D1") .null (.str "")
        (.num "0.5")).map
      (fun r => ((getProjectBalance exampleCfg r.1).2.headers.xTimestamp)) =
      .ok (some 1) :=
  ⟨rfl, rfl, rfl⟩

/-- C2 amended: only calls that write the header slots synchronously before
entering the transport (the POST/PATCH endpoints, here `CreateDeposit`)
transmit a freshly computed timestamp header and a signature over exactly
their own parameter set, independent of the incoming slot state.  GET calls
do not: axios merges the request's headers from the shared defaults before
the `paramsSerializer` runs, so a GET with query parameters transmits
whatever the slots held on entry while its freshly computed pair is left in
the slots for the next request, and the parameterless `GetProjectBalance`
computes nothing and transmits the slots as they are. -/
theorem fresh_headers_only_for_body_calls (cfg : ClientConfig)
    (st : HeaderState) (t0 t1 : Nat) (deposit_id trade_id : JSVal)
    (hd : jsFalsy deposit_id = false) (ht : jsFalsy trade_id = false) :
    (createDeposit cfg st t0 t1 deposit_id .null (.str "") (.num "0.5")).map
      (fun r => r.2.headers) =
      .ok ⟨some t0, some (generateSignature cfg.secretKey
        [("deposit_id", deposit_id), ("steam_id", .null),
         ("trade_url", .str ""), ("min_amount", .num "0.5"),
         ("result_url", .str cfg.resultUrl), ("fail_url", .str cfg.failUrl),
         ("success_url", .str cfg.successUrl),
         ("priority_game", cfg.priorityGame)] t1)⟩
  ∧ (getStatusDeposit cfg st t0 t1 trade_id).map (fun r => r.2.headers) =
      .ok st
  ∧ (getStatusDeposit cfg st t0 t1 trade_id).map (fun r => r.1) =
      .ok ⟨some t0, some (generateSignature cfg.secretKey
        [("trade_id", trade_id)] t1)⟩
  ∧ (getProjectBalance cfg st).2.headers = st := by
  refine ⟨?_, ?_, ?_, rfl⟩
  · simp [createDeposit, hd, Except.map]
  · simp [getStatusDeposit, getWithParams, ht, Except.map]
  · simp [getStatusDeposit, getWithParams, ht, Except.map]

theorem fresh_headers_only_for_body_calls_witness :
    (jsFalsy (.str "D1") = false ∧ jsFalsy (.str "T1") = false) ∧
    ((createDeposit exampleCfg ⟨none, none⟩ 5 6 (.str "D1") .null (.str "")
        (.num "0.5")).map (fun r => r.2.headers) =
      .ok ⟨some 5, some (generateSignature "s3cr3t"
        [("deposit_id", .str "D1"), ("steam_id", .null),
         ("trade_url", .str ""), ("min_amount", .num "0.5"),
         ("result_url", .str ""), ("fail_url", .str ""),
         ("success_url", .str ""), ("priority_game", .num "730")] 6)⟩
    ∧ (getStatusDeposit exampleCfg ⟨none, none⟩ 5 6 (.str "T1")).map
        (fun r => r.2.headers) = .ok ⟨none, none⟩
    ∧ (getStatusDeposit exampleCfg ⟨none, none⟩ 5 6 (.str "T1")).map
        (fun r => r.1) =
        .ok ⟨some 5, some (generateSignature "s3cr3t"
          [("trade_id", .str "T1")] 6)⟩
    ∧ (getProjectBalance exampleCfg ⟨none, none⟩).2.headers = ⟨none, none⟩) :=
  ⟨⟨by decide, by decide⟩, fresh_headers_only_for_body_calls exampleCfg
    ⟨none, none⟩ 5 6 (.str "D1") (.str "T1") (by decide) (by decide)⟩

/-- C3: the claim says `CreateOffer` issues two sequential requests and the
second request's body is the just-signed trade parameter set.  In the code
the trade parameters are signed into the header slots, but line 137 then
posts the undeclared variable `params`: evaluating it raises a
`ReferenceError`, so only the first request is ever dispatched. -/
theorem createOffer_reference_error_before_second_dispatch :
    (createOffer exampleCfg ⟨none, none⟩ 1 2 3 4 (.str "D1") .null
        (.num "730") (.str "") (.arr []) (.str "T9")).1.map
      (fun r => r.path) = ["deposit"]
  ∧ (createOffer exampleCfg ⟨none, none⟩ 1 2 3 4 (.str "D1") .null
        (.num "730") (.str "") (.arr []) (.str "T9")).2.2 =
      .error (.referenceError "params")
  ∧ (createOffer exampleCfg ⟨none, none⟩ 1 2 3 4 (.str "D1") .null
        (.num "730") (.str "") (.arr []) (.str "T9")).2.1 =
      ⟨some 3, some (generateSignature "s3cr3t"
        [("app_id", .num "730"), ("trade_id", .str "T9"),
         ("trade_url", .str ""), ("item_array", .arr [])] 4)⟩ :=
  ⟨rfl, rfl, rfl⟩

/-- C4 counterexample: the entry processing order is not determined solely
by ordinal comparison of the key names.  For `{a:"x", "a!":"y"}` the
default sort compares the pair strings `"a,x"` and `"a!,y"` (the comma
participates), producing `"yx"`, while key-ordinal order would produce
`"xy"`; for `{"10":"a", "2":"b"}` the `fromEntries` array-index reordering
produces `"ba"` while key-ordinal order would produce `"ab"`. -/
theorem canonical_order_not_by_key_counterexample :
    canonicalString [("a", .str "x"), ("a!", .str "y")] = "yx"
  ∧ canonicalStringSpec [("a", .str "x"), ("a!", .str "y")] = "xy"
  ∧ ("yx" == "xy") = false
  ∧ canonicalString [("10", .str "a"), ("2", .str "b")] = "ba"
  ∧ canonicalStringSpec [("10", .str "a"), ("2", .str "b")] = "ab" := by
  refine ⟨by decide, by decide, by decide, by decide, by decide⟩

/-- C4 amended: for mappings in which no key is an initial segment of
another key and no key is an array-index string, the serializer appends the
surviving values in ascending ordinal order of the keys (the
specification's description). -/
theorem canonical_ordinal_key_order_for_independent_keys
    (data : List (String × JSVal)) (h1 : keysIndependentB data = true)
    (h2 : noIndexKeysB data = true) :
    canonicalString data = canonicalStringSpec data := by
  have hpair := pairwise_of_keysIndependent data h1
  have hpt : ∀ p ∈ data, ∀ q ∈ data, entLe p q = keyLe p q := by
    intro p hp q hq
    by_cases hpq : p = q
    · subst hpq
      show charListLe (entryChars p) (entryChars p) =
        charListLe p.1.data p.1.data
      rw [charListLe_refl, charListLe_refl]
    · obtain ⟨ha, hb⟩ := pairwise_mem_of_symm (fun a b hab => ⟨hab.2, hab.1⟩)
        data hpair p hp q hq hpq
      exact entLe_eq_keyLe_of_independent p q ha hb
  have hsort : sortEntries data = insertionSortB keyLe data :=
    insertionSortB_congr entLe keyLe data hpt
  have hnoidx : ∀ p ∈ sortEntries data, isArrayIndexKey p.1 = false := by
    intro p hp
    have hmem : p ∈ data := (mem_insertionSortB entLe data p).mp hp
    have := List.all_eq_true.mp h2 p hmem
    simpa using this
  have hFEO : fromEntriesOrder (sortEntries data) = sortEntries data := by
    unfold fromEntriesOrder
    have hidx : (sortEntries data).filter (fun p => isArrayIndexKey p.1) = [] := by
      rw [List.filter_eq_nil_iff]
      intro p hp
      simp [hnoidx p hp]
    have hkeep : (sortEntries data).filter (fun p => !isArrayIndexKey p.1) =
        sortEntries data := by
      rw [List.filter_eq_self]
      intro p hp
      simp [hnoidx p hp]
    rw [hidx, hkeep]
    simp [insertionSortB]
  unfold canonicalString canonicalStringSpec
  rw [hFEO, hsort]

theorem canonical_ordinal_key_order_for_independent_keys_witness :
    (keysIndependentB [("b", .str "2"), ("a", .str "1")] = true
     ∧ noIndexKeysB [("b", .str "2"), ("a", .str "1")] = true)
  ∧ canonicalString [("b", .str "2"), ("a", .str "1")] =
      canonicalStringSpec [("b", .str "2"), ("a", .str "1")] :=
  ⟨⟨by decide, by decide⟩, canonical_ordinal_key_order_for_independent_keys
    [("b", .str "2"), ("a", .str "1")] (by decide) (by decide)⟩

/-- C5: entries whose value is null, undefined, an array, or a non-primitive
object contribute nothing to the canonical string: canonicalizing any
mapping equals canonicalizing the mapping with those entries removed, and in
particular `{a:1, b:null, c:[1,2]}` canonicalizes like `{a:1}`. -/
theorem canonical_omission_rule :
    (∀ data : List (String × JSVal),
      canonicalString data = canonicalString (data.filter fun p => !skipValue p.2))
  ∧ canonicalString [("a", .num "1"), ("b", .null), ("c", .arr [.num "1", .num "2"])] =
      canonicalString [("a", .num "1")] :=
  ⟨canonicalString_filter, by decide⟩

/-- C6: with secret key `"s3cr3t"`, parameters `{deposit_id:"D1",
min_amount:0.5}` and timestamp `1700000000000`, the canonical string is
`"D10.5"`, the lowercased signed material is `"d10.51700000000000"`, and
the signature is the lowercase-hex HMAC-SHA512 digest of that material
under key `"s3cr3t"`. -/
theorem signature_pipeline_example :
    canonicalString [("deposit_id", .str "D1"), ("min_amount", .num "0.5")] = "D10.5"
  ∧ signedMaterial [("deposit_id", .str "D1"), ("min_amount", .num "0.5")]
      1700000000000 = "d10.51700000000000"
  ∧ generateSignature "s3cr3t"
      [("deposit_id", .str "D1"), ("min_amount", .num "0.5")] 1700000000000 =
      bytesToHex (hmacSha512 (utf8Bytes "s3cr3t")
        (utf8Bytes "d10.51700000000000")) := by
  refine ⟨by decide, by decide, ?_⟩
  unfold generateSignature
  rw [show signedMaterial [("deposit_id", JSVal.str "D1"),
    ("min_amount", JSVal.num "0.5")] 1700000000000 = "d10.51700000000000"
    from by decide]

/-- C7: every transport outcome is normalized before reaching the caller: a
received non-2xx response becomes `serverError` with the status and the
JSON-serialized body, an unanswered request becomes `noResponseError`, any
other failure becomes `transportError` with a message, and every outcome
lands in the payload or one of exactly these three kinds. -/
theorem interceptor_normalizes_every_outcome (s : Nat) (b : JSVal) (m : String) :
    (¬(200 ≤ s ∧ s < 300) →
      interceptResponse (.response s b) = .error (.serverError s (jsonStringify b)))
  ∧ interceptResponse .noResponse = .error .noResponseError
  ∧ interceptResponse (.setupFailure m) = .error (.transportError m)
  ∧ ∀ o : TransportOutcome,
      (∃ v, interceptResponse o = .ok v) ∨
      (∃ s' b', interceptResponse o = .error (.serverError s' b')) ∨
      interceptResponse o = .error .noResponseError ∨
      (∃ m', interceptResponse o = .error (.transportError m')) := by
  refine ⟨fun h => by simp [interceptResponse, h], rfl, rfl, ?_⟩
  intro o
  cases o with
  | response s' b' =>
    by_cases h : 200 ≤ s' ∧ s' < 300
    · exact .inl ⟨b', by simp [interceptResponse, h]⟩
    · exact .inr (.inl ⟨s', jsonStringify b', by simp [interceptResponse, h]⟩)
  | noResponse => exact .inr (.inr (.inl rfl))
  | setupFailure m' => exact .inr (.inr (.inr ⟨m', rfl⟩))

theorem interceptor_normalizes_every_outcome_witness :
    ¬(200 ≤ 422 ∧ 422 < 300)
  ∧ interceptResponse (.response 422 (.obj [("error", .str "bad_amount")])) =
      .error (.serverError 422 "\x7b\"error\":\"bad_amount\"\x7d") := by
  refine ⟨by decide, ?_⟩
  have h := (interceptor_normalizes_every_outcome 422
    (.obj [("error", .str "bad_amount")]) "").1 (by decide)
  rw [h]
  rw [show jsonStringify (JSVal.obj [("error", JSVal.str "bad_amount")]) =
    "\x7b\"error\":\"bad_amount\"\x7d" from by decide]

/-- C8: the claim says a missing credential fails construction synchronously
and a missing required identifier fails any endpoint the same way, with a
configuration error, before any request - naming `BuySkin` as an example.
Construction and `CreateDeposit` behave as claimed, but `BuySkin`'s guard
reads the undeclared `trade_id`, so a call with a missing `internal_id`
fails with a `ReferenceError`, not the required-identifier error. -/
theorem required_field_validation_and_buyskin_divergence :
    mkSkinvedAPI none (some "s3cr3t") = .error (.thrown "API key is required")
  ∧ mkSkinvedAPI (some "") (some "s3cr3t") = .error (.thrown "API key is required")
  ∧ mkSkinvedAPI (some "k") none = .error (.thrown "Secret Key is required")
  ∧ mkSkinvedAPI (some "k") (some "") = .error (.thrown "Secret Key is required")
  ∧ createDeposit exampleCfg ⟨none, none⟩ 0 1 .undefined .null (.str "")
      (.num "0.5") = .error (.thrown "Deposit ID is required")
  ∧ buySkin exampleCfg ⟨none, none⟩ 0 1 .undefined (.str "p") (.str "t")
      (.num "730") (.num "1") (.str "") (.str "") =
      ([], .error (.referenceError "trade_id")) :=
  ⟨rfl, rfl, rfl, rfl, rfl, rfl⟩

/-- C9: `BuySkin` throws for every argument list, valid arguments included:
its guard evaluates the undeclared `trade_id` (not its `internal_id`
parameter), so every invocation raises a `ReferenceError` and dispatches no
request. -/
theorem buySkin_always_raises_reference_error (cfg : ClientConfig)
    (st : HeaderState) (t0 t1 : Nat)
    (internal_id partner partner_token app_id max_price item_id full_name : JSVal) :
    buySkin cfg st t0 t1 internal_id partner partner_token app_id max_price
      item_id full_name = ([], .error (.referenceError "trade_id")) :=
  rfl
